import Mathlib

/-!
Verification development for the yasb widget excerpt: the media widget's
thumbnail compositing pipeline and field truncation
(`src/core/widgets/yasb/media.py`), the language widget's label segment
renderer (`src/core/widgets/yasb/language.py`), and the `Singleton`
metaclass (`src/core/utils/utilities.py`).

Strings are modelled as `List Char` (Python `str` is a sequence of code
points), Python `int` as `ℤ`/`ℕ`, and Python `float` arithmetic as exact
rational arithmetic over `ℚ`.  Python's `round` (banker's rounding,
round-half-to-even) is `pyRound`; Python's floor division `// 2` is `/ 2`
on `ℤ` (Euclidean division coincides with floor division for the positive
divisor 2).  Fallible code is embedded with `Option`: `none` is a raised
exception.
-/

namespace Yasb

/-- Python `round`: round to nearest integer, ties to the even integer
(banker's rounding), on exact rationals. -/
def pyRound (q : ℚ) : ℤ :=
  if q - ⌊q⌋ < 1 / 2 then ⌊q⌋
  else if 1 / 2 < q - ⌊q⌋ then ⌊q⌋ + 1
  else if ⌊q⌋ % 2 = 0 then ⌊q⌋ else ⌊q⌋ + 1

/-- Python slicing `text[:n]` for an `int` index `n`: a nonnegative index
takes the first `n` characters, a negative index counts from the end
(clamped at 0). -/
def pySliceTo (s : List Char) (n : Int) : List Char :=
  if 0 ≤ n then s.take n.toNat else s.take (s.length - (-n).toNat)

/-- Characters removed by Python `str.strip()` (ASCII whitespace). -/
def pyIsSpace (c : Char) : Bool :=
  c = ' ' || c = '\t' || c = '\n' || c = '\x0d' || c = '\x0b' || c = '\x0c'

/-- Python `str.strip()`: drop leading and trailing whitespace. -/
def pyStrip (s : List Char) : List Char :=
  ((s.dropWhile pyIsSpace).reverse.dropWhile pyIsSpace).reverse

/-- Substring test, Python's `pat in s`. -/
def containsSub (pat : List Char) : List Char → Bool
  | [] => pat.isPrefixOf []
  | c :: rest => pat.isPrefixOf (c :: rest) || containsSub pat rest

/-- The apostrophe character `'`. -/
def squote : Char := Char.ofNat 39

/-- The double quote character `"`. -/
def dquote : Char := Char.ofNat 34

/-- The opening brace character. -/
def lbrace : Char := Char.ofNat 123

/-- The closing brace character. -/
def rbrace : Char := Char.ofNat 125

/-- `MediaWidget._format_max_field_size`, parametrised by the configured
maximum size: `if len(text) > max_field_size: return text[:max_field_size - 3] + '...'
else: return text` (media.py lines 222-227). -/
def format_max_field_size (max_field_size : ℕ) (text : List Char) : List Char :=
  if max_field_size < text.length then
    pySliceTo text ((max_field_size : ℤ) - 3) ++ "...".data
  else text

/-- One RGBA pixel.  The alpha channel is kept as an unbounded integer:
the source never clamps the computed alpha (spec §9 flags this), and the
model stores whatever value the code computes; PIL stores bytes, so the
model is faithful for values in `[0, 255]`. -/
structure Pix where
  r : ℕ
  g : ℕ
  b : ℕ
  a : ℤ
deriving DecidableEq

/-- The zero (black, fully transparent) pixel PIL uses to pad regions of a
crop box that lie outside the source image. -/
def zeroPix : Pix := ⟨0, 0, 0, 0⟩

/-- A bitmap: a width, a height, and a total pixel function; only the
coordinates in `[0, width) × [0, height)` are meaningful, and every image
built by the operations below is `zeroPix` outside that range. -/
structure Img where
  width : ℕ
  height : ℕ
  pix : Int → Int → Pix

/-- A single-channel (mode `'L'`) bitmap used for masks. -/
structure GrayImg where
  width : ℕ
  height : ℕ
  pix : Int → Int → ℤ

/-- Grayscale value of one pixel, PIL's `convert('L')` ITU-R 601-2 luma
transform as implemented in PIL's C core:
`L = (R*19595 + G*38470 + B*7471 + 0x8000) >> 16`. -/
def toGray (p : Pix) : ℕ := (p.r * 19595 + p.g * 38470 + p.b * 7471 + 32768) / 65536

/-- Sum of the grayscale values of all pixels, `sum(im_l.getdata())`. -/
def graySum (img : Img) : ℕ :=
  ((List.range img.height).map (fun y =>
    ((List.range img.width).map (fun x => toGray (img.pix x y))).sum)).sum

/-- `MediaWidget._avg_lightness` (media.py lines 217-220): mean grayscale
value, `sum(im_l.getdata()) / ImageStat.Stat(im_l).count[0]` where the
count is `width * height`.  The division by a zero count raises in Python;
callers guard that case before using this value. -/
def avg_lightness (img : Img) : ℚ :=
  (graySum img : ℚ) / ((img.width * img.height : ℕ) : ℚ)

/-- The scalar thumbnail alpha computed from an average lightness `L`
(media.py lines 199-200):
`thumbnail_alpha = (1.0 - r) * 255 + r * (255 - L)` followed by
`thumbnail_alpha = round(m * thumbnail_alpha)`. -/
def alpha_from_lightness (m r L : ℚ) : ℤ :=
  pyRound (m * ((1 - r) * 255 + r * (255 - L)))

/-- The scalar alpha of a cropped thumbnail: `alpha_from_lightness` at the
bitmap's average lightness. -/
def crop_alpha (m r : ℚ) (img : Img) : ℤ :=
  alpha_from_lightness m r (avg_lightness img)

/-- PIL `Image.crop((left, top, right, bottom))`: the result has size
`(right - left, bottom - top)` and pixel `(x, y)` is source pixel
`(x + left, y + top)` when that lies inside the source, and the zero pixel
otherwise (PIL pads out-of-range regions with zeros). -/
def crop (img : Img) (left top right bottom : Int) : Img :=
  { width := (right - left).toNat
    height := (bottom - top).toNat
    pix := fun x y =>
      if 0 ≤ x + left ∧ x + left < (img.width : Int) ∧
         0 ≤ y + top ∧ y + top < (img.height : Int)
      then img.pix (x + left) (y + top) else zeroPix }

/-- The vertical center crop of `MediaWidget._crop_thumbnail`
(media.py lines 193-196): `y1 = (thumbnail.height - new_h) // 2` and
`thumbnail.crop((0, y1, thumbnail.width, y1 + new_h))`.  Python's floor
division `// 2` equals Euclidean `/ 2` on `ℤ` for the positive divisor 2. -/
def center_crop (img : Img) (new_h : ℕ) : Img :=
  crop img 0 (((img.height : Int) - new_h) / 2) img.width
    ((((img.height : Int) - new_h) / 2) + new_h)

/-- PIL `Image.resize((w, h))` (media.py line 191): the result has exactly
the requested dimensions.  The resampled pixel values are approximated by
nearest-neighbour source sampling (PIL's default filter interpolates);
no theorem below depends on the resampled values, only on the dimensions. -/
def resize (img : Img) (w h : ℕ) : Img :=
  { width := w
    height := h
    pix := fun x y =>
      if 0 ≤ x ∧ x < (w : Int) ∧ 0 ≤ y ∧ y < (h : Int) ∧
         0 < img.width ∧ 0 < img.height
      then img.pix ((x * img.width) / w) ((y * img.height) / h) else zeroPix }

/-- The corner-rounding selector (media.py line 208):
`(False, True, True, False) if self._controls_left else (True, False, False, True)`,
in PIL's order (top-left, top-right, bottom-right, bottom-left). -/
def cornersFor (controls_left : Bool) : Bool × Bool × Bool × Bool :=
  if controls_left then (false, true, true, false) else (true, false, false, true)

/-- The filled region of PIL `ImageDraw.rounded_rectangle([0, 0, w-1, h-1],
radius, fill, None, 0, corners=k)`: the full rectangle, minus, at each
corner selected by `k`, the part of the radius-`c` corner square lying
outside the quarter disc of radius `c` centred `c` pixels into the image. -/
def inRoundedRect (w h c : ℕ) (k : Bool × Bool × Bool × Bool) (x y : Int) : Prop :=
  (0 ≤ x ∧ x ≤ (w : Int) - 1 ∧ 0 ≤ y ∧ y ≤ (h : Int) - 1) ∧
  ¬(k.1 = true ∧ x < (c : Int) ∧ y < (c : Int) ∧
      ((c : Int)) ^ 2 < (x - (c : Int)) ^ 2 + (y - (c : Int)) ^ 2) ∧
  ¬(k.2.1 = true ∧ (w : Int) - 1 - c < x ∧ y < (c : Int) ∧
      ((c : Int)) ^ 2 < (x - ((w : Int) - 1 - c)) ^ 2 + (y - (c : Int)) ^ 2) ∧
  ¬(k.2.2.1 = true ∧ (w : Int) - 1 - c < x ∧ (h : Int) - 1 - c < y ∧
      ((c : Int)) ^ 2 < (x - ((w : Int) - 1 - c)) ^ 2 + (y - ((h : Int) - 1 - c)) ^ 2) ∧
  ¬(k.2.2.2 = true ∧ x < (c : Int) ∧ (h : Int) - 1 - c < y ∧
      ((c : Int)) ^ 2 < (x - (c : Int)) ^ 2 + (y - ((h : Int) - 1 - c)) ^ 2)

instance inRoundedRect.inst (w h c : ℕ) (k : Bool × Bool × Bool × Bool) (x y : Int) :
    Decidable (inRoundedRect w h c k x y) := by
  unfold inRoundedRect; infer_instance

/-- The corner mask (media.py lines 204-210): a mode-`'L'` image of the
thumbnail's size, background 0, with the rounded rectangle filled with the
scalar alpha. -/
def corner_mask (w h c : ℕ) (k : Bool × Bool × Bool × Bool) (a : ℤ) : GrayImg :=
  ⟨w, h, fun x y => if inRoundedRect w h c k x y then a else 0⟩

/-- PIL `Image.putalpha(int)`: set every pixel's alpha channel to the
scalar value (media.py line 213). -/
def putalpha_scalar (img : Img) (a : ℤ) : Img :=
  { img with pix := fun x y => { img.pix x y with a := a } }

/-- PIL `Image.putalpha(mask)`: set each pixel's alpha channel to the
mask's value at that pixel (media.py line 211). -/
def putalpha_mask (img : Img) (mask : GrayImg) : Img :=
  { img with pix := fun x y => { img.pix x y with a := mask.pix x y } }

/-- The corner-masking step of `MediaWidget._crop_thumbnail`
(media.py lines 202-213): with a positive corner radius, draw the rounded
mask and apply it as the alpha channel; otherwise apply the scalar alpha
uniformly. -/
def apply_corner_mask (c : ℕ) (controls_left : Bool) (a : ℤ) (img : Img) : Img :=
  if 0 < c then
    putalpha_mask img (corner_mask img.width img.height c (cornersFor controls_left) a)
  else putalpha_scalar img a

/-- Glyph configuration of the media widget (`icons` constructor argument). -/
structure MediaIcons where
  play : List Char
  pause : List Char
  prev_track : List Char
  next_track : List Char

/-- The `MediaWidget` constructor arguments that the handlers read. -/
structure MediaConfig where
  label_main : List Char
  label_sub : List Char
  hide_empty : Bool
  max_field_label : ℕ
  max_field_label_alt : ℕ
  show_thumbnail : Bool
  controls_only : Bool
  controls_left : Bool
  thumbnail_alpha_multiplier : ℚ
  thumbnail_alpha_range : ℚ
  thumbnail_padding : ℕ
  thumbnail_corner_radius : ℕ
  icons : MediaIcons

/-- `MediaWidget._crop_thumbnail` (media.py lines 187-215), end to end.
`none` is a raised exception caught by the caller: a zero source width
raises `ZeroDivisionError` at `new_width / thumbnail.width` (line 190), and
a cropped bitmap with zero pixel count raises `ZeroDivisionError` inside
`_avg_lightness` (line 220); the cropped size is
`new_width × frame_h`, so the count is zero iff one of those is. -/
def crop_thumbnail (cfg : MediaConfig) (frame_h : ℕ) (thumbnail : Img)
    (active_label_width : ℕ) : Option Img :=
  if thumbnail.width = 0 then none
  else
    let new_width := active_label_width + cfg.thumbnail_padding
    let new_height :=
      (pyRound ((thumbnail.height : ℚ) * ((new_width : ℚ) / (thumbnail.width : ℚ)))).toNat
    let scaled := resize thumbnail new_width new_height
    let cropped := center_crop scaled frame_h
    if cropped.width * cropped.height = 0 then none
    else
      let a := crop_alpha cfg.thumbnail_alpha_multiplier cfg.thumbnail_alpha_range cropped
      some (apply_corner_mask cfg.thumbnail_corner_radius cfg.controls_left a cropped)

/-- Transport-control capability flags of a playback notification. -/
structure PlaybackControls where
  is_previous_enabled : Bool
  is_play_pause_toggle_enabled : Bool
  is_next_enabled : Bool

/-- A playback-state notification (status 4 is "playing"). -/
structure PlaybackInfo where
  playback_status : ℕ
  controls : PlaybackControls

/-- A media-metadata notification: the string fields of the `media_info`
dict (title, artist, ...) and the optional thumbnail bitmap.  A delivered
`None` thumbnail is `none`. -/
structure MediaInfo where
  fields : List (List Char × List Char)
  thumbnail : Option Img

/-- The widget state the media handlers mutate: visibility flags, label
texts, the play/pause glyph, the dynamic style classes of the three
transport buttons, and the thumbnail pixmap. -/
structure MediaState where
  widget_frame_visible : Bool
  thumbnail_visible : Bool
  main_visible : Bool
  sub_visible : Bool
  main_text : List Char
  sub_text : List Char
  play_text : List Char
  prev_class : List Char
  play_class : List Char
  next_class : List Char
  thumbnail_pixmap : Option Img
  show_alt_label : Bool

/-- State after `MediaWidget.__init__`: the frame is hidden iff
`hide_empty` (media.py lines 58-59), the play button shows the `play`
glyph (line 240), texts are empty, `_show_alt_label` is `False`
(line 110); labels and the thumbnail label start visible (default Qt
visibility of children of a shown parent). -/
def media_init (cfg : MediaConfig) : MediaState :=
  { widget_frame_visible := !cfg.hide_empty
    thumbnail_visible := true
    main_visible := true
    sub_visible := true
    main_text := []
    sub_text := []
    play_text := cfg.icons.play
    prev_class := "btn".data
    play_class := "btn".data
    next_class := "btn".data
    thumbnail_pixmap := none
    show_alt_label := false }

/-- `MediaWidget._on_session_status_changed` (media.py lines 115-139). -/
def on_session_status_changed (cfg : MediaConfig) (s : MediaState)
    (has_session : Bool) : MediaState :=
  if has_session then
    if cfg.controls_only then { s with widget_frame_visible := true }
    else { s with widget_frame_visible := true, main_visible := true, sub_visible := true }
  else
    { s with thumbnail_visible := false
             main_visible := true
             sub_visible := true
             main_text := []
             sub_text := []
             play_text := cfg.icons.play
             widget_frame_visible := if cfg.hide_empty then false else s.widget_frame_visible }

/-- The `enabled_if` lambda of media.py line 146: `"disabled" if not
enabled else ""`. -/
def enabled_if (enabled : Bool) : List Char :=
  if !enabled then "disabled".data else []

/-- `MediaWidget._on_playback_info_changed` (media.py lines 141-154). -/
def on_playback_info_changed (cfg : MediaConfig) (s : MediaState)
    (pi : PlaybackInfo) : MediaState :=
  { s with
    play_text := if pi.playback_status = 4 then cfg.icons.pause else cfg.icons.play
    prev_class := "btn prev ".data ++ enabled_if pi.controls.is_previous_enabled
    play_class := "btn play ".data ++ enabled_if pi.controls.is_play_pause_toggle_enabled
    next_class := "btn next ".data ++ enabled_if pi.controls.is_next_enabled }

/-- Key lookup in the modelled `media_info` dict. -/
def lookupField (fields : List (List Char × List Char)) (k : List Char) :
    Option (List Char) :=
  (fields.find? (fun kv => kv.1 = k)).map (fun kv => kv.2)

/-- Reads a `{key}` placeholder body up to the closing brace. -/
def takeKey : List Char → Option (List Char × List Char)
  | [] => none
  | c :: rest =>
    if c = rbrace then some ([], rest)
    else (takeKey rest).map (fun kr => (c :: kr.1, kr.2))

/-- Fuel-driven worker for `pyFormat`; the fuel (initially the template
length) strictly bounds the number of consumed characters. -/
def pyFormatF (fields : List (List Char × List Char)) : ℕ → List Char → List Char
  | 0, s => s
  | _ + 1, [] => []
  | fuel + 1, c :: rest =>
    if c = lbrace then
      match takeKey rest with
      | some (k, r) =>
        match lookupField fields k with
        | some v => v ++ pyFormatF fields fuel r
        | none => c :: (k ++ rbrace :: pyFormatF fields fuel r)
      | none => c :: pyFormatF fields fuel rest
    else c :: pyFormatF fields fuel rest

/-- Python `template.format(**fields)` restricted to plain `{key}`
placeholders (the only form the widget templates use).  A placeholder whose
key is missing is kept verbatim where Python would raise `KeyError`, and
`{{`/`}}` escapes are not modelled; no claim exercises either case. -/
def pyFormat (fields : List (List Char × List Char)) (template : List Char) : List Char :=
  pyFormatF fields template.length template

/-- The dict comprehension of media.py lines 164-165: truncate every
string value with `_format_max_field_size`, which reads
`max_field_size['label_alt' if self._show_alt_label else 'label']`. -/
def truncate_fields (cfg : MediaConfig) (alt : Bool)
    (fields : List (List Char × List Char)) : List (List Char × List Char) :=
  fields.map (fun kv =>
    (kv.1, format_max_field_size
      (if alt then cfg.max_field_label_alt else cfg.max_field_label) kv.2))

/-- `MediaWidget._on_media_properties_changed` (media.py lines 156-185).
The GUI-measured label width (`max` of the two labels' `sizeHint`
widths) and the rendered frame height are inputs from the toolkit.  The
`try`/`except`/`else` around the thumbnail update maps to the `Option`
match: a `none` from `crop_thumbnail` is the caught-and-logged exception
(`_thumbnail_label.hide()`), any other outcome runs the `else` branch
(`_thumbnail_label.show()`). -/
def on_media_properties_changed (cfg : MediaConfig) (s : MediaState) (mi : MediaInfo)
    (measured_width frame_h : ℕ) : MediaState :=
  if cfg.controls_only then s
  else
    let fs := truncate_fields cfg s.show_alt_label mi.fields
    let s1 := { s with main_text := pyFormat fs cfg.label_main
                       sub_text := pyFormat fs cfg.label_sub }
    if !cfg.show_thumbnail then s1
    else
      match mi.thumbnail with
      | none => { s1 with thumbnail_visible := true }
      | some t =>
        match crop_thumbnail cfg frame_h t measured_width with
        | some im => { s1 with thumbnail_pixmap := some im, thumbnail_visible := true }
        | none => { s1 with thumbnail_visible := false }

/-- The three notification streams the widget subscribes to
(media.py lines 96-101), marshalled onto the UI thread. -/
inductive MediaEvent where
  | session (has_session : Bool)
  | playback (pi : PlaybackInfo)
  | media (mi : MediaInfo) (measured_width frame_h : ℕ)

/-- Dispatch of one delivered notification to its slot. -/
def media_step (cfg : MediaConfig) (s : MediaState) : MediaEvent → MediaState
  | .session b => on_session_status_changed cfg s b
  | .playback pi => on_playback_info_changed cfg s pi
  | .media mi w fh => on_media_properties_changed cfg s mi w fh

/-- The state after the constructor followed by a sequence of delivered
notifications. -/
def media_run (cfg : MediaConfig) (es : List MediaEvent) : MediaState :=
  es.foldl (media_step cfg) (media_init cfg)

/-!
Label segment renderer of the language widget (language.py).  The two
regular expressions are modelled directly, with Python's semantics:
`.` matches any character except a newline, `.*?` is lazy (shortest match
first, extending on failure of the rest of the pattern), and matching is
leftmost.
-/

/-- Scans for the first `</span>` literal, with no intervening newline
(the `.*?` that precedes it cannot cross one): returns the characters
consumed before it and the rest after it. -/
def findClose : List Char → Option (List Char × List Char)
  | [] => none
  | c :: rest =>
    if ("</span>".data).isPrefixOf (c :: rest) then some ([], (c :: rest).drop 7)
    else if c = '\n' then none
    else (findClose rest).map (fun pr => (c :: pr.1, pr.2))

/-- Matches `.*?>.*?</span>` (the part of `<span.*?>.*?</span>` after the
literal `<span`): the first `>` whose remainder contains `</span>` on the
same line ends the opening tag, lazily.  Returns the matched characters and
the rest of the input. -/
def matchAfterSpan : List Char → Option (List Char × List Char)
  | [] => none
  | c :: rest =>
    if c = '\n' then none
    else if c = '>' then
      match findClose rest with
      | some (mid, r) => some ('>' :: (mid ++ "</span>".data), r)
      | none => (matchAfterSpan rest).map (fun mr => (c :: mr.1, mr.2))
    else (matchAfterSpan rest).map (fun mr => (c :: mr.1, mr.2))

/-- The leftmost match of `<span.*?>.*?</span>`: returns the text before
the match, the matched text, and the rest after it. -/
def findSpan : List Char → Option (List Char × List Char × List Char)
  | [] => none
  | c :: rest =>
    match if ("<span".data).isPrefixOf (c :: rest) then matchAfterSpan (rest.drop 4)
          else none with
    | some (m, r) => some ([], "<span".data ++ m, r)
    | none => (findSpan rest).map (fun t => (c :: t.1, t.2.1, t.2.2))

/-- Fuel-driven worker for `splitSpans`; every successful `findSpan`
consumes at least the matched `<span...></span>` text, so a fuel of the
input length never runs out. -/
def splitSpansF : ℕ → List Char → List (List Char)
  | 0, s => [s]
  | fuel + 1, s =>
    match findSpan s with
    | none => [s]
    | some (pre, m, r) => pre :: m :: splitSpansF fuel r

/-- Python `re.split('(<span.*?>.*?</span>)', content)`: alternating
unmatched text and (because of the capture group) matched spans, including
empty pieces. -/
def splitSpans (s : List Char) : List (List Char) := splitSpansF s.length s

/-- The filtered split both `_create_dynamically_label.process_content`
and `_update_label` start from:
`[part for part in re.split('(<span.*?>.*?</span>)', content) if part]`
(language.py lines 71-72 and 103-104). -/
def label_parts (content : List Char) : List (List Char) :=
  (splitSpans content).filter (fun p => p ≠ [])

/-- Consume characters up to and including the first `>`, failing on a
newline or the end of input (the lazy `.*?` of `<span.*?>` cannot cross a
newline). -/
def dropThroughGt : List Char → Option (List Char)
  | [] => none
  | c :: rest =>
    if c = '>' then some rest
    else if c = '\n' then none
    else dropThroughGt rest

/-- Fuel-driven worker for `removeSpanTags`. -/
def removeSpanTagsF : ℕ → List Char → List Char
  | 0, s => s
  | _ + 1, [] => []
  | fuel + 1, c :: rest =>
    if ("</span>".data).isPrefixOf (c :: rest) then
      removeSpanTagsF fuel ((c :: rest).drop 7)
    else if ("<span".data).isPrefixOf (c :: rest) then
      match dropThroughGt (rest.drop 4) with
      | some r => removeSpanTagsF fuel r
      | none => c :: removeSpanTagsF fuel rest
    else c :: removeSpanTagsF fuel rest

/-- Python `re.sub(r'<span.*?>|</span>', '', part)` (language.py lines 81
and 116): delete every opening `<span...>` tag and every closing
`</span>`. -/
def removeSpanTags (s : List Char) : List Char := removeSpanTagsF s.length s

/-- Reads the lazy `[^"\x27]+?` class-name body terminated by the quote
`q` that opened it: at least one character, none of them a quote of either
kind, ending at the first occurrence of `q`. -/
def takeClass (q : Char) : List Char → Option (List Char)
  | [] => none
  | c :: rest =>
    if c = dquote || c = squote then none
    else if rest.head? = some q then some [c]
    else (takeClass q rest).map (fun k => c :: k)

/-- Python `re.search(r'class=(["\x27])([^"\x27]+?)\1', part)` returning
group 2 (language.py lines 79-80): the first `class=` followed by a quote,
a nonempty run of non-quote characters, and the same quote again. -/
def findClassVal : List Char → Option (List Char)
  | [] => none
  | c :: rest =>
    if ("class=".data).isPrefixOf (c :: rest) then
      match (c :: rest).drop 6 with
      | q :: rest2 =>
        if q = dquote || q = squote then
          match takeClass q rest2 with
          | some k => some k
          | none => (findClassVal rest)
        else findClassVal rest
      | [] => findClassVal rest
    else findClassVal rest

/-- One display segment of a parsed label template: the `QLabel`'s text,
its `class` style property, and its visibility. -/
structure Seg where
  text : List Char
  cls : List Char
  visible : Bool
deriving DecidableEq

/-- `process_content` inside `LanguageWidget._create_dynamically_label`
(language.py lines 70-95): split the template, strip each part, skip empty
parts, build an icon segment (class from the `class=` attribute, default
`"icon"`, text with the span tags removed) for parts containing both
`<span` and `</span>`, and a `"label"` segment otherwise; for the
alternate set the class is overridden with `"label alt"` and the segment
is hidden. -/
def process_content (content : List Char) (alt : Bool) : List Seg :=
  (label_parts content).filterMap (fun part0 =>
    let part := pyStrip part0
    if part = [] then none
    else
      let base : Seg :=
        if containsSub ("<span".data) part && containsSub ("</span>".data) part then
          { text := pyStrip (removeSpanTags part)
            cls := (findClassVal part).getD ("icon".data)
            visible := true }
        else { text := part, cls := "label".data, visible := true }
      if alt then some { base with cls := "label alt".data, visible := false }
      else some base)

/-- Python `part.format(lang=lang)` (language.py line 120).  The widget
passes the record returned by the OS keyboard query; the model takes the
rendered substitution string for the `{lang}` placeholder. -/
def format_lang (l : List Char) (part : List Char) : List Char :=
  pyFormat [("lang".data, l)] part

/-- The new text `_update_label` computes for one split part: `none` when
the stripped part is empty (the loop skips it without consuming a
widget), the tag-stripped icon text for span parts, and the formatted text
otherwise — formatted only when the language query succeeded
(`part.format(lang=lang) if lang else part`, language.py lines 111-121). -/
def new_text (lang : Option (List Char)) (part0 : List Char) : Option (List Char) :=
  let part := pyStrip part0
  if part = [] then none
  else if containsSub ("<span".data) part && containsSub ("</span>".data) part then
    some (pyStrip (removeSpanTags part))
  else some (match lang with | some l => format_lang l part | none => part)

/-- All texts `_update_label` computes for a template, in order. -/
def update_texts (content : List Char) (lang : Option (List Char)) : List (List Char) :=
  (label_parts content).filterMap (new_text lang)

/-- Positional assignment of the computed texts onto the existing widgets:
widget `i` receives text `i`; extra texts are dropped (the
`widget_index < len(active_widgets)` guard) and extra widgets are left
untouched. -/
def apply_texts : List Seg → List (List Char) → List Seg
  | [], _ => []
  | ws, [] => ws
  | w :: ws, t :: ts => { w with text := t } :: apply_texts ws ts

/-- `LanguageWidget._update_label` (language.py lines 100-122) on the
active template and widget list: re-split the same template and rewrite
the text of each existing widget by position.  `lang = none` is a failed
`_get_current_keyboard_language` query (the bare `except`). -/
def update_label (content : List Char) (lang : Option (List Char))
    (widgets : List Seg) : List Seg :=
  apply_texts widgets (update_texts content lang)

/-!
The `Singleton` metaclass (utilities.py lines 20-29).  The class-level
`_instances` dict shared by every class using the metaclass is a registry
mapping a class key to its stored instance; `__call__` consults it before
constructing.  The model also counts constructor runs to make "the
constructor is not run again" provable.
-/

/-- The `Singleton._instances` registry plus a count of how many times a
constructor has been run through it. -/
structure SReg (κ ι : Type) where
  inst : κ → Option ι
  constructions : ℕ

/-- The initial empty `_instances = {}`. -/
def emptyReg (κ ι : Type) : SReg κ ι := ⟨fun _ => none, 0⟩

/-- `Singleton.__call__(cls, *args)` (utilities.py lines 23-26): construct
and store on a miss (`mk` is `super().__call__`), return the stored
instance untouched on a hit. -/
def scall {κ ι α : Type} [DecidableEq κ] (mk : κ → List α → ι) (r : SReg κ ι)
    (c : κ) (args : List α) : ι × SReg κ ι :=
  match r.inst c with
  | some i => (i, r)
  | none =>
    (mk c args,
      ⟨fun x => if x = c then some (mk c args) else r.inst x, r.constructions + 1⟩)

/-- `Singleton.has_instance(cls)` (utilities.py lines 28-29):
`cls in cls._instances`. -/
def has_instance {κ ι : Type} (r : SReg κ ι) (c : κ) : Bool := (r.inst c).isSome

/-- A sequence of instantiation calls, threading the registry. -/
def runCalls {κ ι α : Type} [DecidableEq κ] (mk : κ → List α → ι) :
    SReg κ ι → List (κ × List α) → SReg κ ι
  | r, [] => r
  | r, (c, a) :: rest => runCalls mk (scall mk r c a).2 rest

/-!
Concrete inputs used by witness theorems below.
-/

/-- The spec's example template, `<span class='icon'>A</span> B {lang}`. -/
def sample_template : List Char :=
  "<span class=".data ++ [squote] ++ "icon".data ++ [squote] ++ ">A</span> B {lang}".data

/-- A 3×5 test bitmap. -/
def img_c3 : Img := ⟨3, 5, fun x y => ⟨x.toNat + y.toNat, 0, 0, 255⟩⟩

/-- An 8×8 test bitmap. -/
def img_c4 : Img := ⟨8, 8, fun _ _ => ⟨10, 20, 30, 255⟩⟩

/-- A 2×1 test bitmap (shorter than the crop heights used on it). -/
def img_c9 : Img := ⟨2, 1, fun _ _ => ⟨200, 100, 50, 255⟩⟩

/-- A degenerate bitmap with zero width, on which `_crop_thumbnail`
raises `ZeroDivisionError`. -/
def badThumb : Img := ⟨0, 5, fun _ _ => zeroPix⟩

/-- A concrete media-widget configuration with thumbnails enabled. -/
def cfg_c8 : MediaConfig :=
  { label_main := "{title}".data
    label_sub := "{artist}".data
    hide_empty := false
    max_field_label := 10
    max_field_label_alt := 10
    show_thumbnail := true
    controls_only := false
    controls_left := true
    thumbnail_alpha_multiplier := 1
    thumbnail_alpha_range := 1
    thumbnail_padding := 0
    thumbnail_corner_radius := 0
    icons := ⟨"p".data, "q".data, "r".data, "s".data⟩ }

/-- A media-info notification whose thumbnail makes `_crop_thumbnail`
raise. -/
def mi_c8 : MediaInfo :=
  ⟨[("title".data, "abc".data), ("artist".data, "xy".data)], some badThumb⟩

/-!
Helper lemmas about `pyRound`.
-/

theorem floor_le_pyRound (q : ℚ) : ⌊q⌋ ≤ pyRound q := by
  unfold pyRound; split_ifs <;> omega

theorem pyRound_le_floor_add_one (q : ℚ) : pyRound q ≤ ⌊q⌋ + 1 := by
  unfold pyRound; split_ifs <;> omega

theorem pyRound_eq_floor_or (q : ℚ) : pyRound q = ⌊q⌋ ∨ pyRound q = ⌊q⌋ + 1 := by
  unfold pyRound; split_ifs <;> omega

theorem half_le_of_pyRound_eq_add_one {q : ℚ} (h : pyRound q = ⌊q⌋ + 1) :
    1 / 2 ≤ q - ⌊q⌋ := by
  unfold pyRound at h
  split_ifs at h with h1 h2 h3
  · omega
  · linarith
  · linarith
  · linarith

theorem pyRound_eq_add_one_of_half_lt {q : ℚ} (h : 1 / 2 < q - ⌊q⌋) :
    pyRound q = ⌊q⌋ + 1 := by
  unfold pyRound
  rw [if_neg (by linarith), if_pos h]

theorem pyRound_mono {a b : ℚ} (h : a ≤ b) : pyRound a ≤ pyRound b := by
  rcases eq_or_lt_of_le h with rfl | hlt
  · exact le_refl _
  have hf : ⌊a⌋ ≤ ⌊b⌋ := Int.floor_le_floor h
  rcases lt_or_eq_of_le hf with hflt | hfeq
  · calc pyRound a ≤ ⌊a⌋ + 1 := pyRound_le_floor_add_one a
      _ ≤ ⌊b⌋ := by omega
      _ ≤ pyRound b := floor_le_pyRound b
  · rcases pyRound_eq_floor_or a with ha | ha
    · rw [ha, hfeq]; exact floor_le_pyRound b
    · have h2 : (1 : ℚ) / 2 ≤ a - ⌊a⌋ := half_le_of_pyRound_eq_add_one ha
      have h3 : (1 : ℚ) / 2 < b - ⌊b⌋ := by
        rw [← hfeq]; linarith
      rw [ha, hfeq, pyRound_eq_add_one_of_half_lt h3]

theorem pyRound_intCast (n : ℤ) : pyRound ((n : ℚ)) = n := by
  unfold pyRound
  rw [Int.floor_intCast, sub_self, if_pos (by norm_num : (0 : ℚ) < 1 / 2)]

/-!
C1 — field truncation.
-/

/-- C1, counterexample: the claim's concrete example is wrong.  With
`max_field_size = 10`, `"A very long title"` is cut to its first
`10 - 3 = 7` characters `"A very "` (which ends in a space) before the
ellipsis is appended, so the output is `"A very ..."`, not the claimed
`"A very lo..."` (which moreover has 12 characters, not 10). -/
theorem C1_counterexample :
    format_max_field_size 10 ("A very long title".data) ≠ "A very lo...".data := by
  decide

/-- C1, amended: values no longer than the maximum are returned unchanged;
for a maximum of at least 3, longer values are truncated to the first
`max - 3` characters plus `"..."`, giving exactly `max` characters; and on
the spec's example the output is `"A very ..."`. -/
theorem C1_theorem (text : List Char) (m : ℕ) :
    (text.length ≤ m → format_max_field_size m text = text) ∧
    (3 ≤ m → m < text.length →
      format_max_field_size m text = text.take (m - 3) ++ "...".data ∧
      (format_max_field_size m text).length = m) ∧
    format_max_field_size 10 ("A very long title".data) = "A very ...".data := by
  refine ⟨?_, ?_, by decide⟩
  · intro hle
    unfold format_max_field_size
    rw [if_neg (by omega)]
  · intro h3 hlt
    unfold format_max_field_size pySliceTo
    rw [if_pos hlt, if_pos (by omega : (0 : ℤ) ≤ (m : ℤ) - 3)]
    have htn : ((m : ℤ) - 3).toNat = m - 3 := by omega
    rw [htn]
    refine ⟨rfl, ?_⟩
    have h3l : ("...".data).length = 3 := rfl
    simp only [List.length_append, List.length_take, h3l]
    omega

/-- C1, witness: the amended theorem applied at concrete inputs. -/
theorem C1_witness :
    format_max_field_size 5 ("abcdef".data) = "ab...".data ∧
    (format_max_field_size 5 ("abcdef".data)).length = 5 ∧
    format_max_field_size 4 ("abc".data) = "abc".data := by
  refine ⟨?_, ?_, ?_⟩
  · exact (((C1_theorem ("abcdef".data) 5).2.1 (by decide) (by decide)).1).trans (by decide)
  · exact ((C1_theorem ("abcdef".data) 5).2.1 (by decide) (by decide)).2
  · exact (C1_theorem ("abc".data) 4).1 (by decide)

/-!
C2 — the thumbnail alpha computation.
-/

/-- C2, counterexample: the claimed monotonicity in `L` fails for a
negative alpha multiplier.  At `m = -1`, `r = 1`, the alpha at lightness
255 is `round(-1·0) = 0` while the alpha at lightness 0 is
`round(-1·255) = -255`, so a brighter source yields a *higher* alpha. -/
theorem C2_counterexample :
    ¬ (∀ (m r L₁ L₂ : ℚ), 0 ≤ L₁ → L₁ ≤ L₂ → L₂ ≤ 255 → 0 < r → r ≤ 1 →
        alpha_from_lightness m r L₂ ≤ alpha_from_lightness m r L₁) := by
  intro hcl
  have h := hcl (-1) 1 0 255 le_rfl (by norm_num) le_rfl one_pos le_rfl
  have e1 : ((-1 : ℚ)) * ((1 - 1) * 255 + 1 * (255 - 255)) = ((0 : ℤ) : ℚ) := by norm_num
  have e2 : ((-1 : ℚ)) * ((1 - 1) * 255 + 1 * (255 - 0)) = ((-255 : ℤ) : ℚ) := by norm_num
  unfold alpha_from_lightness at h
  rw [e1, e2, pyRound_intCast, pyRound_intCast] at h
  omega

/-- C2, amended: the computed alpha equals
`round(m * ((1-r)*255 + r*(255-L)))`; for a *nonnegative* multiplier `m`
and `r > 0` the alpha is monotonically non-increasing in `L`, and with
`r = 0` it is constant, independent of `L`. -/
theorem C2_theorem :
    (∀ (m r : ℚ) (img : Img),
        crop_alpha m r img =
          pyRound (m * ((1 - r) * 255 + r * (255 - avg_lightness img)))) ∧
    (∀ (m r L₁ L₂ : ℚ), 0 ≤ m → 0 < r → r ≤ 1 → 0 ≤ L₁ → L₁ ≤ L₂ → L₂ ≤ 255 →
        alpha_from_lightness m r L₂ ≤ alpha_from_lightness m r L₁) ∧
    (∀ (m L L' : ℚ), alpha_from_lightness m 0 L = alpha_from_lightness m 0 L') := by
  refine ⟨fun m r img => rfl, ?_, ?_⟩
  · intro m r L₁ L₂ hm hr hr1 h1 h12 h255
    apply pyRound_mono
    have hd : 0 ≤ m * r * (L₂ - L₁) :=
      mul_nonneg (mul_nonneg hm hr.le) (sub_nonneg.mpr h12)
    nlinarith
  · intro m L L'
    unfold alpha_from_lightness
    norm_num

/-- C2, witness: the amended theorem applied at concrete inputs. -/
theorem C2_witness :
    alpha_from_lightness 1 1 255 ≤ alpha_from_lightness 1 1 0 ∧
    alpha_from_lightness 5 0 17 = alpha_from_lightness 5 0 255 := by
  exact ⟨C2_theorem.2.1 1 1 0 255 (by norm_num) one_pos le_rfl le_rfl (by norm_num) le_rfl,
    C2_theorem.2.2 5 17 255⟩

/-!
C3 — the vertically centered crop when the scaled height suffices.
-/

/-- C3: when the bitmap's height is at least the requested crop height,
the center crop has exactly the requested height and an unchanged width,
and each of its pixels is the source pixel of the vertically centered band
starting at row `y1 = (height - new_h) // 2`. -/
theorem C3_theorem (img : Img) (new_h : ℕ) (hh : new_h ≤ img.height) :
    (center_crop img new_h).height = new_h ∧
    (center_crop img new_h).width = img.width ∧
    ∀ x y : Int, 0 ≤ x → x < (img.width : Int) → 0 ≤ y → y < (new_h : Int) →
      (center_crop img new_h).pix x y =
        img.pix x (y + ((img.height : Int) - new_h) / 2) := by
  unfold center_crop crop
  refine ⟨by simp, by simp, ?_⟩
  intro x y hx0 hxw hy0 hyh
  simp only
  rw [if_pos ⟨by omega, by omega, by omega, by omega⟩, add_zero]

/-- C3, witness: the theorem applied to a 3×5 bitmap cropped to height 3,
where `y1 = (5 - 3) // 2 = 1`. -/
theorem C3_witness :
    (center_crop img_c3 3).height = 3 ∧ (center_crop img_c3 3).width = 3 ∧
    (center_crop img_c3 3).pix 1 0 = img_c3.pix 1 1 := by
  obtain ⟨h1, h2, h3⟩ := C3_theorem img_c3 3 (by decide)
  refine ⟨h1, h2, ?_⟩
  have := h3 1 0 (by decide) (by decide) (by decide) (by decide)
  norm_num [img_c3] at this ⊢
  exact this

/-!
C9 — the crop when the requested height exceeds the scaled height.
-/

/-- C9: when the requested crop height exceeds the bitmap's height, the
crop still returns a bitmap of exactly the requested height and unchanged
width; the top coordinate `y1 = (height - new_h) // 2` is negative, the
rows whose source row falls outside the bitmap are zero (black,
fully transparent) pixels, and the rows whose source row is in range are
the source rows. -/
theorem C9_theorem (img : Img) (new_h : ℕ) (hw : 0 < img.width)
    (hh : 0 < img.height) (hlt : img.height < new_h) :
    (center_crop img new_h).height = new_h ∧
    (center_crop img new_h).width = img.width ∧
    ((img.height : Int) - new_h) / 2 < 0 ∧
    (∀ x y : Int, 0 ≤ y → y < (new_h : Int) →
      (y + ((img.height : Int) - new_h) / 2 < 0 ∨
        (img.height : Int) ≤ y + ((img.height : Int) - new_h) / 2) →
      (center_crop img new_h).pix x y = zeroPix) ∧
    (∀ x y : Int, 0 ≤ x → x < (img.width : Int) →
      0 ≤ y + ((img.height : Int) - new_h) / 2 →
      y + ((img.height : Int) - new_h) / 2 < (img.height : Int) →
      (center_crop img new_h).pix x y =
        img.pix x (y + ((img.height : Int) - new_h) / 2)) := by
  unfold center_crop crop
  refine ⟨by simp, by simp, by omega, ?_, ?_⟩
  · intro x y hy0 hyh hout
    simp only
    rw [if_neg]
    intro hcon
    omega
  · intro x y hx0 hxw hys0 hysh
    simp only
    rw [if_pos ⟨by omega, by omega, by omega, by omega⟩, add_zero]

/-- C9, witness: cropping a 2×1 bitmap to height 4 gives `y1 = -2`; row 0
is padding (zero pixels) and row 2 is source row 0. -/
theorem C9_witness :
    (center_crop img_c9 4).height = 4 ∧ (center_crop img_c9 4).width = 2 ∧
    ((img_c9.height : Int) - 4) / 2 < 0 ∧
    (center_crop img_c9 4).pix 0 0 = zeroPix ∧
    (center_crop img_c9 4).pix 0 2 = img_c9.pix 0 0 := by
  obtain ⟨h1, h2, h3, h4, h5⟩ := C9_theorem img_c9 4 (by decide) (by decide) (by decide)
  refine ⟨h1, h2, h3, ?_, ?_⟩
  · exact h4 0 0 (by decide) (by decide) (by norm_num [img_c9])
  · have := h5 0 2 (by decide) (by decide) (by norm_num [img_c9]) (by norm_num [img_c9])
    norm_num [img_c9] at this ⊢
    exact this

/-!
C4 — the corner masking step.  The four lemmas settle membership of the
four extreme pixels of the mask rectangle in the rounded-rectangle region:
an extreme pixel is inside the region exactly when its corner is not
selected for rounding (for a radius that is positive and small enough for
the corner squares not to overlap the opposite edges).
-/

theorem corner_tl_iff (w h c : ℕ) (k : Bool × Bool × Bool × Bool) (hc : 0 < c)
    (hcw : (c : Int) < (w : Int) - 1) (hch : (c : Int) < (h : Int) - 1) :
    inRoundedRect w h c k 0 0 ↔ k.1 = false := by
  have hpos : 0 < (c : Int) ^ 2 := pow_pos (by exact_mod_cast hc) 2
  unfold inRoundedRect
  constructor
  · rintro ⟨-, hTL, -, -, -⟩
    cases hk : k.1
    · rfl
    · exact absurd ⟨hk, by omega, by omega, by nlinarith⟩ hTL
  · intro hk
    refine ⟨⟨by omega, by omega, by omega, by omega⟩, ?_, ?_, ?_, ?_⟩
    · rintro ⟨h1, -⟩; rw [hk] at h1; cases h1
    · rintro ⟨-, h2, -⟩; omega
    · rintro ⟨-, h2, -⟩; omega
    · rintro ⟨-, -, h3, -⟩; omega

theorem corner_tr_iff (w h c : ℕ) (k : Bool × Bool × Bool × Bool) (hc : 0 < c)
    (hcw : (c : Int) < (w : Int) - 1) (hch : (c : Int) < (h : Int) - 1) :
    inRoundedRect w h c k ((w : Int) - 1) 0 ↔ k.2.1 = false := by
  have hpos : 0 < (c : Int) ^ 2 := pow_pos (by exact_mod_cast hc) 2
  unfold inRoundedRect
  constructor
  · rintro ⟨-, -, hTR, -, -⟩
    cases hk : k.2.1
    · rfl
    · exact absurd ⟨hk, by omega, by omega, by nlinarith⟩ hTR
  · intro hk
    refine ⟨⟨by omega, by omega, by omega, by omega⟩, ?_, ?_, ?_, ?_⟩
    · rintro ⟨-, h2, -⟩; omega
    · rintro ⟨h1, -⟩; rw [hk] at h1; cases h1
    · rintro ⟨-, -, h3, -⟩; omega
    · rintro ⟨-, h2, -⟩; omega

theorem corner_br_iff (w h c : ℕ) (k : Bool × Bool × Bool × Bool) (hc : 0 < c)
    (hcw : (c : Int) < (w : Int) - 1) (hch : (c : Int) < (h : Int) - 1) :
    inRoundedRect w h c k ((w : Int) - 1) ((h : Int) - 1) ↔ k.2.2.1 = false := by
  have hpos : 0 < (c : Int) ^ 2 := pow_pos (by exact_mod_cast hc) 2
  unfold inRoundedRect
  constructor
  · rintro ⟨-, -, -, hBR, -⟩
    cases hk : k.2.2.1
    · rfl
    · exact absurd ⟨hk, by omega, by omega, by nlinarith⟩ hBR
  · intro hk
    refine ⟨⟨by omega, by omega, by omega, by omega⟩, ?_, ?_, ?_, ?_⟩
    · rintro ⟨-, h2, -⟩; omega
    · rintro ⟨-, -, h3, -⟩; omega
    · rintro ⟨h1, -⟩; rw [hk] at h1; cases h1
    · rintro ⟨-, h2, -⟩; omega

theorem corner_bl_iff (w h c : ℕ) (k : Bool × Bool × Bool × Bool) (hc : 0 < c)
    (hcw : (c : Int) < (w : Int) - 1) (hch : (c : Int) < (h : Int) - 1) :
    inRoundedRect w h c k 0 ((h : Int) - 1) ↔ k.2.2.2 = false := by
  have hpos : 0 < (c : Int) ^ 2 := pow_pos (by exact_mod_cast hc) 2
  unfold inRoundedRect
  constructor
  · rintro ⟨-, -, -, -, hBL⟩
    cases hk : k.2.2.2
    · rfl
    · exact absurd ⟨hk, by omega, by omega, by nlinarith⟩ hBL
  · intro hk
    refine ⟨⟨by omega, by omega, by omega, by omega⟩, ?_, ?_, ?_, ?_⟩
    · rintro ⟨-, -, h3, -⟩; omega
    · rintro ⟨-, h2, -⟩; omega
    · rintro ⟨-, h2, -⟩; omega
    · rintro ⟨h1, -⟩; rw [hk] at h1; cases h1

/-- C4: with corner radius 0 the scalar alpha is applied uniformly to
every pixel; with a positive radius the alpha channel is the drawn mask —
the scalar alpha inside the rounded rectangle and 0 outside it — and the
rounding side follows the controls side: with controls on the left the two
right corner pixels are masked out while the left ones keep the scalar
alpha, and symmetrically with controls on the right. -/
theorem C4_theorem (img : Img) (c : ℕ) (cl : Bool) (a : ℤ) :
    (∀ x y : Int, ((apply_corner_mask 0 cl a img).pix x y).a = a) ∧
    (0 < c → ∀ x y : Int, ((apply_corner_mask c cl a img).pix x y).a =
        if inRoundedRect img.width img.height c (cornersFor cl) x y then a else 0) ∧
    (0 < c → (c : Int) < (img.width : Int) - 1 → (c : Int) < (img.height : Int) - 1 →
      (((apply_corner_mask c true a img).pix 0 0).a = a ∧
        ((apply_corner_mask c true a img).pix 0 ((img.height : Int) - 1)).a = a ∧
        ((apply_corner_mask c true a img).pix ((img.width : Int) - 1) 0).a = 0 ∧
        ((apply_corner_mask c true a img).pix ((img.width : Int) - 1)
          ((img.height : Int) - 1)).a = 0) ∧
      (((apply_corner_mask c false a img).pix 0 0).a = 0 ∧
        ((apply_corner_mask c false a img).pix 0 ((img.height : Int) - 1)).a = 0 ∧
        ((apply_corner_mask c false a img).pix ((img.width : Int) - 1) 0).a = a ∧
        ((apply_corner_mask c false a img).pix ((img.width : Int) - 1)
          ((img.height : Int) - 1)).a = a)) := by
  have hmask : ∀ (cl' : Bool), 0 < c → ∀ x y : Int,
      ((apply_corner_mask c cl' a img).pix x y).a =
        if inRoundedRect img.width img.height c (cornersFor cl') x y then a else 0 := by
    intro cl' hc x y
    unfold apply_corner_mask putalpha_mask corner_mask
    rw [if_pos hc]
  refine ⟨?_, hmask cl, ?_⟩
  · intro x y
    unfold apply_corner_mask putalpha_scalar
    rw [if_neg (by omega)]
  · intro hc hcw hch
    constructor
    · refine ⟨?_, ?_, ?_, ?_⟩
      · rw [hmask true hc, if_pos ((corner_tl_iff _ _ _ _ hc hcw hch).mpr rfl)]
      · rw [hmask true hc, if_pos ((corner_bl_iff _ _ _ _ hc hcw hch).mpr rfl)]
      · rw [hmask true hc, if_neg (fun hm =>
          Bool.true_eq_false.mp ((corner_tr_iff _ _ _ _ hc hcw hch).mp hm))]
      · rw [hmask true hc, if_neg (fun hm =>
          Bool.true_eq_false.mp ((corner_br_iff _ _ _ _ hc hcw hch).mp hm))]
    · refine ⟨?_, ?_, ?_, ?_⟩
      · rw [hmask false hc, if_neg (fun hm =>
          Bool.true_eq_false.mp ((corner_tl_iff _ _ _ _ hc hcw hch).mp hm))]
      · rw [hmask false hc, if_neg (fun hm =>
          Bool.true_eq_false.mp ((corner_bl_iff _ _ _ _ hc hcw hch).mp hm))]
      · rw [hmask false hc, if_pos ((corner_tr_iff _ _ _ _ hc hcw hch).mpr rfl)]
      · rw [hmask false hc, if_pos ((corner_br_iff _ _ _ _ hc hcw hch).mpr rfl)]

/-- C4, witness: the theorem applied to an 8×8 bitmap with radius 2 and
alpha 7. -/
theorem C4_witness :
    ((apply_corner_mask 0 true 7 img_c4).pix 3 3).a = 7 ∧
    ((apply_corner_mask 2 true 7 img_c4).pix 0 0).a = 7 ∧
    ((apply_corner_mask 2 true 7 img_c4).pix 7 0).a = 0 ∧
    ((apply_corner_mask 2 false 7 img_c4).pix 0 0).a = 0 := by
  obtain ⟨p1, -, p3⟩ := C4_theorem img_c4 2 true 7
  obtain ⟨⟨hl1, -, hr1, -⟩, hrr⟩ :=
    p3 (by decide) (by norm_num [img_c4]) (by norm_num [img_c4])
  refine ⟨p1 3 3, hl1, ?_, ?_⟩
  · have e : ((img_c4.width : Int) - 1) = 7 := by norm_num [img_c4]
    rw [← e]; exact hr1
  · exact hrr.1

/-!
C5 — concrete parse and update of the spec's example template.
-/

/-- C5: parsing `<span class='icon'>A</span> B {lang}` yields exactly the
two segments `("A", icon)` and `("B {lang}", label)`, and updating with
`lang = "en"` rewrites their texts to `"A"` and `"B en"` — the icon
segment's text is produced by tag stripping, not by substitution. -/
theorem C5_theorem :
    process_content sample_template false =
      [⟨"A".data, "icon".data, true⟩, ⟨"B {lang}".data, "label".data, true⟩] ∧
    update_label sample_template (some ("en".data))
        (process_content sample_template false) =
      [⟨"A".data, "icon".data, true⟩, ⟨"B en".data, "label".data, true⟩] := by
  exact ⟨by decide, by decide⟩

/-!
C6 — the segment-count invariant of the renderer.
-/

theorem apply_texts_length (ws : List Seg) (ts : List (List Char)) :
    (apply_texts ws ts).length = ws.length := by
  induction ws generalizing ts with
  | nil => cases ts <;> rfl
  | cons w ws ih => cases ts with
    | nil => rfl
    | cons t ts => simp [apply_texts, ih]

theorem apply_texts_cls (ws : List Seg) (ts : List (List Char)) (i : ℕ) :
    ((apply_texts ws ts)[i]?).map Seg.cls = (ws[i]?).map Seg.cls := by
  induction ws generalizing ts i with
  | nil => cases ts <;> rfl
  | cons w ws ih => cases ts with
    | nil => rfl
    | cons t ts => cases i with
      | zero => simp [apply_texts]
      | succ j => simpa [apply_texts] using ih ts j

theorem apply_texts_visible (ws : List Seg) (ts : List (List Char)) (i : ℕ) :
    ((apply_texts ws ts)[i]?).map Seg.visible = (ws[i]?).map Seg.visible := by
  induction ws generalizing ts i with
  | nil => cases ts <;> rfl
  | cons w ws ih => cases ts with
    | nil => rfl
    | cons t ts => cases i with
      | zero => simp [apply_texts]
      | succ j => simpa [apply_texts] using ih ts j

/-- C6: however many times `_update_label` is applied, with whatever
substitution value (including `none`, a failed language query), the widget
list keeps exactly its length, and each position keeps its style class and
visibility — updates only rewrite the texts of the existing segments, by
position. -/
theorem C6_theorem (content : List Char) (lang : Option (List Char))
    (widgets : List Seg) (n : ℕ) :
    ((update_label content lang)^[n] widgets).length = widgets.length ∧
    ∀ i : ℕ,
      (((update_label content lang)^[n] widgets)[i]?).map Seg.cls =
        (widgets[i]?).map Seg.cls ∧
      (((update_label content lang)^[n] widgets)[i]?).map Seg.visible =
        (widgets[i]?).map Seg.visible := by
  induction n with
  | zero => exact ⟨rfl, fun i => ⟨rfl, rfl⟩⟩
  | succ n ih =>
    rw [Function.iterate_succ_apply']
    refine ⟨?_, fun i => ⟨?_, ?_⟩⟩
    · rw [update_label, apply_texts_length]
      exact ih.1
    · rw [update_label, apply_texts_cls]
      exact (ih.2 i).1
    · rw [update_label, apply_texts_visible]
      exact (ih.2 i).2

/-- C6, witness: two updates of a freshly parsed two-segment template with
different substitution values leave the length and the classes unchanged. -/
theorem C6_witness :
    ((update_label ("x {lang} y".data) none)^[2]
        (process_content ("x {lang} y".data) false)).length =
      (process_content ("x {lang} y".data) false).length ∧
    (((update_label ("x {lang} y".data) none)^[2]
        (process_content ("x {lang} y".data) false))[0]?).map Seg.cls =
      ((process_content ("x {lang} y".data) false)[0]?).map Seg.cls := by
  exact ⟨(C6_theorem ("x {lang} y".data) none _ 2).1,
    ((C6_theorem ("x {lang} y".data) none _ 2).2 0).1⟩

/-!
C7 — the session-absent handler.  The widget frame is hidden only by the
`hide_empty` paths (constructor line 58-59 and handler line 138-139), so
with `hide_empty = False` every reachable state keeps the frame visible;
this turns the handler's conditional hide into an "iff" on reachable
states.
-/

theorem frame_visible_step (cfg : MediaConfig) (hhe : cfg.hide_empty = false)
    (s : MediaState) (hs : s.widget_frame_visible = true) (e : MediaEvent) :
    (media_step cfg s e).widget_frame_visible = true := by
  cases e with
  | session b =>
    cases b with
    | false => simp [media_step, on_session_status_changed, hhe, hs]
    | true =>
      simp only [media_step, on_session_status_changed]
      split_ifs <;> rfl
  | playback pi => exact hs
  | media mi w fh =>
    simp only [media_step, on_media_properties_changed]
    split_ifs with h1 h2
    · exact hs
    · exact hs
    · split
      · exact hs
      · split
        · exact hs
        · exact hs

theorem frame_visible_run (cfg : MediaConfig) (hhe : cfg.hide_empty = false)
    (es : List MediaEvent) : (media_run cfg es).widget_frame_visible = true := by
  have general : ∀ (es' : List MediaEvent) (s : MediaState),
      s.widget_frame_visible = true →
      (es'.foldl (media_step cfg) s).widget_frame_visible = true := by
    intro es'
    induction es' with
    | nil => exact fun s hs => hs
    | cons e rest ih =>
      intro s hs
      exact ih _ (frame_visible_step cfg hhe s hs e)
  exact general es _ (by simp [media_init, hhe])

/-- C7: after a session-absent notification, in any reachable state, the
thumbnail is hidden, the main and sub texts are empty, the play glyph is
the configured `play` icon, and the widget frame ends up hidden exactly
when `hide_empty` is configured. -/
theorem C7_theorem (cfg : MediaConfig) (es : List MediaEvent) :
    (media_step cfg (media_run cfg es) (.session false)).thumbnail_visible = false ∧
    (media_step cfg (media_run cfg es) (.session false)).main_text = [] ∧
    (media_step cfg (media_run cfg es) (.session false)).sub_text = [] ∧
    (media_step cfg (media_run cfg es) (.session false)).play_text = cfg.icons.play ∧
    ((media_step cfg (media_run cfg es) (.session false)).widget_frame_visible = false ↔
      cfg.hide_empty = true) := by
  refine ⟨rfl, rfl, rfl, rfl, ?_⟩
  show (if cfg.hide_empty then false else (media_run cfg es).widget_frame_visible)
      = false ↔ cfg.hide_empty = true
  cases hhe : cfg.hide_empty with
  | false => simp [frame_visible_run cfg hhe es]
  | true => simp

/-!
C8 — error handling of the metadata handler.
-/

/-- C8: on a metadata update (with text labels and thumbnails enabled),
the main and sub texts are set from the truncated metadata; if thumbnail
processing raises, the caught failure hides the thumbnail surface and
leaves the pixmap and the just-set texts untouched, while any
non-raising outcome (including an absent thumbnail) shows the surface. -/
theorem C8_theorem (cfg : MediaConfig) (s : MediaState) (mi : MediaInfo)
    (w fh : ℕ) (hco : cfg.controls_only = false) (hst : cfg.show_thumbnail = true) :
    (on_media_properties_changed cfg s mi w fh).main_text =
      pyFormat (truncate_fields cfg s.show_alt_label mi.fields) cfg.label_main ∧
    (on_media_properties_changed cfg s mi w fh).sub_text =
      pyFormat (truncate_fields cfg s.show_alt_label mi.fields) cfg.label_sub ∧
    (∀ t, mi.thumbnail = some t → crop_thumbnail cfg fh t w = none →
      (on_media_properties_changed cfg s mi w fh).thumbnail_visible = false ∧
      (on_media_properties_changed cfg s mi w fh).thumbnail_pixmap =
        s.thumbnail_pixmap) ∧
    (mi.thumbnail = none →
      (on_media_properties_changed cfg s mi w fh).thumbnail_visible = true) ∧
    (∀ t im, mi.thumbnail = some t → crop_thumbnail cfg fh t w = some im →
      (on_media_properties_changed cfg s mi w fh).thumbnail_visible = true ∧
      (on_media_properties_changed cfg s mi w fh).thumbnail_pixmap = some im) := by
  unfold on_media_properties_changed
  rw [if_neg (by simp [hco]), if_neg (by simp [hst])]
  refine ⟨?_, ?_, ?_, ?_, ?_⟩
  · split
    · rfl
    · split <;> rfl
  · split
    · rfl
    · split <;> rfl
  · intro t hmt hc
    simp [hmt, hc]
  · intro hmt
    simp only [hmt]
  · intro t im hmt hc
    simp [hmt, hc]

/-- C8, witness: a zero-width thumbnail makes `crop_thumbnail` raise; the
handler hides the thumbnail surface and still sets the texts from the
metadata. -/
theorem C8_witness :
    (on_media_properties_changed cfg_c8 (media_init cfg_c8) mi_c8 3 7).thumbnail_visible
      = false ∧
    (on_media_properties_changed cfg_c8 (media_init cfg_c8) mi_c8 3 7).main_text
      = "abc".data ∧
    (on_media_properties_changed cfg_c8 (media_init cfg_c8) mi_c8 3 7).sub_text
      = "xy".data := by
  obtain ⟨hmain, hsub, hfail, -, -⟩ :=
    C8_theorem cfg_c8 (media_init cfg_c8) mi_c8 3 7 rfl rfl
  obtain ⟨hv, -⟩ := hfail badThumb rfl rfl
  exact ⟨hv, hmain.trans (by decide), hsub.trans (by decide)⟩

/-!
C10 — the Singleton metaclass.
-/

/-- C10: on the empty registry `has_instance` is false; the first call on
a class constructs, stores, and returns `mk c a` (one constructor run);
any call on a class that already has a stored instance returns exactly
that instance and leaves the registry — including the construction count —
completely unchanged, whatever the new arguments are; the stored instance
of a class survives any further sequence of calls; and `has_instance`
stays true once set, across calls on any class. -/
theorem C10_theorem {κ ι α : Type} [DecidableEq κ] (mk : κ → List α → ι)
    (c : κ) (a : List α) :
    has_instance (emptyReg κ ι) c = false ∧
    ((scall mk (emptyReg κ ι) c a).1 = mk c a ∧
      (scall mk (emptyReg κ ι) c a).2.inst c = some (mk c a) ∧
      has_instance (scall mk (emptyReg κ ι) c a).2 c = true ∧
      (scall mk (emptyReg κ ι) c a).2.constructions = 1) ∧
    (∀ (r : SReg κ ι) (i : ι), r.inst c = some i →
      ∀ a' : List α, scall mk r c a' = (i, r)) ∧
    (∀ (r : SReg κ ι) (i : ι) (calls : List (κ × List α)), r.inst c = some i →
      (runCalls mk r calls).inst c = some i) ∧
    (∀ (r : SReg κ ι) (c' : κ) (a' : List α), has_instance r c = true →
      has_instance (scall mk r c' a').2 c = true) := by
  have hstep : ∀ (r : SReg κ ι) (i : ι) (c' : κ) (a' : List α), r.inst c = some i →
      (scall mk r c' a').2.inst c = some i := by
    intro r i c' a' h
    unfold scall
    cases hr : r.inst c' with
    | some j => exact h
    | none =>
      simp only
      by_cases hcc : c = c'
      · rw [hcc] at h; rw [h] at hr; cases hr
      · rw [if_neg hcc]; exact h
  refine ⟨rfl, ⟨rfl, by simp [scall, emptyReg], by simp [scall, emptyReg, has_instance], rfl⟩,
    ?_, ?_, ?_⟩
  · intro r i h a'
    unfold scall
    rw [h]
  · intro r i calls h
    induction calls generalizing r with
    | nil => exact h
    | cons p rest ih => exact ih _ (hstep r i p.1 p.2 h)
  · intro r c' a' h
    unfold has_instance at h ⊢
    cases hr : r.inst c with
    | none => rw [hr] at h; cases h
    | some i => rw [hstep r i c' a' hr]; rfl

/-- C10, witness: the theorem applied at a concrete constructor on `ℕ`:
the first call builds `5 + 2 = 7`, a second call with different arguments
returns the same stored `7` and does not construct again. -/
theorem C10_witness :
    has_instance (emptyReg ℕ ℕ) 5 = false ∧
    (scall (fun c args => c + args.length) (emptyReg ℕ ℕ) 5 [1, 2]).1 = 7 ∧
    (scall (fun c args => c + args.length)
        ((scall (fun c args => c + args.length) (emptyReg ℕ ℕ) 5 [1, 2]).2) 5 [9]) =
      (7, (scall (fun c args => c + args.length) (emptyReg ℕ ℕ) 5 [1, 2]).2) ∧
    (scall (fun c args => c + args.length) (emptyReg ℕ ℕ) 5 [1, 2]).2.constructions = 1 := by
  obtain ⟨h1, ⟨hfst, hstore, -, hcount⟩, hhit, -, -⟩ :=
    C10_theorem (fun (c : ℕ) (args : List ℕ) => c + args.length) 5 [1, 2]
  refine ⟨h1, hfst, ?_, hcount⟩
  exact hhit _ 7 hstore [9]

end Yasb
